import Mathlib

namespace Spades

/-!
Verification of the Spades rules engine (Discord Spades bot).

The repository contains two rule engines: `game_logic/GameManager.js`
(the engine wired to `index.js`, with its collaborators `Player.js`,
`Card.js`, `Deck.js`) and the alternate class-based engine `Game.js`.
Definitions below are shallow embeddings of the relevant functions of
both engines; the prefix `GM` (or a comment) marks GameManager-side
definitions and `GJ` marks Game.js-side definitions.

JavaScript numbers are modelled as `Int`/`Nat`/`Rat` as appropriate
(all the relevant arithmetic is exact integer or small-rational
arithmetic, far below 2^53, so no overflow modelling is needed).
-/

/-- Suit codes as used throughout the source (single characters
    `'S' 'H' 'D' 'C'` in `Card.js` / `Game.js`). -/
inductive Suit
  | S
  | H
  | D
  | C
deriving DecidableEq

/-- A playing card: its numeric comparison value (`Card.value`, 2..14 in
    both `Card.js` and `Game.js`) and its suit code.  `Int` is used
    because trick-ranking compares values against the sentinel `-1`. -/
structure Card where
  value : Int
  suit : Suit
deriving DecidableEq

/-- A card of the real 52-card deck has value 2..14 (`RANKS_MAP` in
    `Card.js`, `Card.getValue` in `Game.js`). -/
def validCard (c : Card) : Prop :=
  2 ≤ c.value ∧ c.value ≤ 14

instance (c : Card) : Decidable (validCard c) := by
  unfold validCard
  infer_instance

/-! ## C9: leading-a-spade validation (GameManager.processCardPlay, lines 421-431)

Source:
```
const hasOnlySpades = player.hand.every(c => c.suitCode === 'S');
if (cardToCheck.suitCode === 'S' && !this.spadesBroken && !hasOnlySpades) { reject }
```
`Game.js` `getCardFromInput` Rule 1 (lines 286-293) implements the same
condition. -/

/-- The lead-validation predicate of `GameManager.processCardPlay`:
    `true` means the lead is rejected with the SpadesNotBroken error. -/
def leadSpadeRejected (card : Card) (hand : List Card) (spadesBroken : Bool) : Bool :=
  (card.suit == Suit.S) && (!spadesBroken) && (!(hand.all fun c => c.suit == Suit.S))

/-! ## C7: game-end condition

GameManager (`checkGameEnd`, lines 639-659; `endRound` steps 6-7,
lines 725-738): the game ends iff a team's score reached `targetScore`,
otherwise `startNextRound` is called.

Game.js (`calculateRoundScores`, line 465):
```
const isGameOver = team1 >= maxScore || team2 >= maxScore
                || team1 <= -200 || team2 <= -200;
```
-/

/-- `GameManager.checkGameEnd`: true iff either team's score reached the
    target score. -/
def checkGameEnd (targetScore team1Score team2Score : Int) : Bool :=
  decide (team1Score ≥ targetScore) || decide (team2Score ≥ targetScore)

/-- Outcome of `GameManager.endRound` after scores are applied. -/
inductive RoundOutcome
  | gameEnded
  | nextRoundStarted
deriving DecidableEq

/-- Steps 6-7 of `GameManager.endRound`: if `checkGameEnd` fires the
    round handler returns (game over), otherwise `startNextRound` runs. -/
def endRoundOutcome (targetScore team1Score team2Score : Int) : RoundOutcome :=
  if checkGameEnd targetScore team1Score team2Score then
    RoundOutcome.gameEnded
  else
    RoundOutcome.nextRoundStarted

/-- The `isGameOver` test of `Game.calculateRoundScores` (Game.js line 465). -/
def gjIsGameOver (maxScore team1 team2 : Int) : Bool :=
  decide (team1 ≥ maxScore) || decide (team2 ≥ maxScore) ||
    decide (team1 ≤ -200) || decide (team2 ≤ -200)

/-! ## C6: bag accumulation penalty

GameManager (`calculateAndApplyBags`, lines 588-615): per team,
`totalBags = Σ bags`; if `totalBags >= 10` then
`bagPenalty = floor(totalBags/10)*100`, `remainingBags = totalBags % 10`,
every player of the team gets `score -= bagPenalty` and `bags = 0`, and
the first player gets `bags = remainingBags`.

Game.js (`calculateRoundScores`, lines 439-453) instead subtracts the
penalty at most **once** per round end (a single `if`, no loop). -/

/-- A player record of `GameManager` (`Player.js`): bid, Nil flag,
    tricks won this round, cumulative score, cumulative bags. -/
structure GMPlayer where
  bid : Nat
  isNil : Bool
  tricksWon : Nat
  score : Int
  bags : Nat
deriving DecidableEq

/-- Per-team body of `GameManager.calculateAndApplyBags` for the team's
    two players `a` (first in the team's array) and `b`. -/
def calculateAndApplyBagsTeam (a b : GMPlayer) : GMPlayer × GMPlayer :=
  let totalBags := a.bags + b.bags
  if 10 ≤ totalBags then
    let bagPenalty : Int := (totalBags / 10 * 100 : Nat)
    let remainingBags := totalBags % 10
    ({ a with score := a.score - bagPenalty, bags := remainingBags },
     { b with score := b.score - bagPenalty, bags := 0 })
  else
    (a, b)

/-- Modelled from the spec: "Whenever the running total reaches or
    exceeds 10, a one-time −100 penalty is applied and the total is
    reduced by exactly 10 (repeat if still ≥10)."  Returns the total
    penalty points and the remaining bag total. -/
def bagPenaltyRepeat (t : Nat) : Nat × Nat :=
  if h : 10 ≤ t then
    let p := bagPenaltyRepeat (t - 10)
    (p.1 + 100, p.2)
  else
    (0, t)
termination_by t
decreasing_by omega

/-! ## C1: single-nil partnership scoring

`Game.calculateRoundScores` (Game.js lines 363-457) scores each team
through the local helper `scoreTeam`; in its single-nil branch the nil
bidder is scored ±100 on the team score, a failed nil bidder's tricks
are added to the team's bag total, and the partner is scored as a
standard bid of their own bid against their own tricks.

`GameManager.endRound` (lines 662-738) uses a different algorithm:
the nil ±100 goes to the nil bidder's *individual* score only, and a
failed nil bidder's tricks are *subtracted* from the team's tricks and
never credited as bags. -/

/-- A player record of the alternate `Game.js` engine: `bid`
    (`14` encodes Nil there), tricks and bags this round. -/
structure GJPlayer where
  bid : Nat
  tricks : Nat
  bags : Nat
deriving DecidableEq

/-- `const nilPlayer = p1BidIsNil ? p1 : p2` of the single-nil branch. -/
def gjNilPlayer (p1 p2 : GJPlayer) : GJPlayer :=
  if p1.bid = 14 then p1 else p2

/-- `const partner = p1BidIsNil ? p2 : p1` of the single-nil branch. -/
def gjPartner (p1 p2 : GJPlayer) : GJPlayer :=
  if p1.bid = 14 then p2 else p1

/-- The `scoreTeam` helper of `Game.calculateRoundScores`: returns the
    two updated players (new bag counts) and the `scoreDelta` added to
    `teamScores`.  All three contract branches and the trailing bag
    distribution / single bag-penalty check are translated from the
    source. -/
def gjScoreTeam (p1 p2 : GJPlayer) : GJPlayer × GJPlayer × Int :=
  let tricksTaken := p1.tricks + p2.tricks
  let enteringBags := p1.bags + p2.bags
  let totalBid := (if p1.bid = 14 then 0 else p1.bid) + (if p2.bid = 14 then 0 else p2.bid)
  -- (scoreDelta, totalBags) after the contract branches
  let core : Int × Nat :=
    if p1.bid = 14 ∧ p2.bid = 14 then
      -- Double Nil: ±200, no bags counted
      (if p1.tricks = 0 ∧ p2.tricks = 0 then 200 else -200, enteringBags)
    else if p1.bid = 14 ∨ p2.bid = 14 then
      -- Single Nil
      let nilP := gjNilPlayer p1 p2
      let partner := gjPartner p1 p2
      let nilDelta : Int := if nilP.tricks = 0 then 100 else -100
      let bagsAfterNil := enteringBags + (if nilP.tricks = 0 then 0 else nilP.tricks)
      if partner.tricks ≥ partner.bid then
        (nilDelta + (partner.bid * 10 : Nat), bagsAfterNil + (partner.tricks - partner.bid))
      else
        (nilDelta - (partner.bid * 10 : Nat), bagsAfterNil)
    else
      -- Standard bids
      if tricksTaken ≥ totalBid then
        ((totalBid * 10 : Nat), enteringBags + (tricksTaken - totalBid))
      else
        (-((totalBid * 10 : Nat) : Int), enteringBags)
  -- bag distribution: p1 gets floor, p2 gets ceil of the gained bags
  let bagsGained := core.2 - enteringBags
  let b1 := p1.bags + bagsGained / 2
  let b2 := p2.bags + (bagsGained + 1) / 2
  -- single bag-penalty check (one `if`, not a loop)
  if 10 ≤ b1 + b2 then
    ({ p1 with bags := (b1 + b2 - 10) / 2 },
     { p2 with bags := (b1 + b2 - 10 + 1) / 2 },
     core.1 - 100)
  else
    ({ p1 with bags := b1 }, { p2 with bags := b2 }, core.1)

/-- Per-team body of `GameManager.endRound` (lines 676-723) for the
    team's two players `a` (first in the team's array) and `b`: Nil bids
    are scored on the individual nil bidder's score only; the standard
    contract compares the summed team bid against the team tricks MINUS
    the nil players' tricks; its score change is applied to both
    players' scores; the team bags go to the first player. -/
def gmEndRoundTeam (a b : GMPlayer) : GMPlayer × GMPlayer :=
  let nilDelta : GMPlayer → Int := fun p =>
    if p.isNil then (if p.tricksWon = 0 then 100 else -100) else 0
  let totalNilTricksWon :=
    (if a.isNil then a.tricksWon else 0) + (if b.isNil then b.tricksWon else 0)
  let standardBid := a.bid + b.bid
  let standardTricks := (a.tricksWon + b.tricksWon) - totalNilTricksWon
  let teamScoreChange : Int :=
    if standardTricks ≥ standardBid then (standardBid * 10 : Nat)
    else -((standardBid * 10 : Nat) : Int)
  let teamBags := if standardTricks ≥ standardBid then standardTricks - standardBid else 0
  ({ a with score := a.score + nilDelta a + teamScoreChange, bags := a.bags + teamBags },
   { b with score := b.score + nilDelta b + teamScoreChange })

/-- Steps 1-4 of `GameManager.endRound` for one team: contract scoring
    followed by `calculateAndApplyBags`. -/
def gmScoreRoundTeam (a b : GMPlayer) : GMPlayer × GMPlayer :=
  let r := gmEndRoundTeam a b
  calculateAndApplyBagsTeam r.1 r.2

/-- The team score of `GameManager.announceTeamScores` (line 623):
    the two teammates' scores summed and divided by 2 (this is the
    score `checkGameEnd` receives). -/
def gmTeamScore (a b : GMPlayer) : Int :=
  (a.score + b.score) / 2

/-! ## C8: card lookup from user text input

`Card.js` builds `this.code = this.rankText + this.symbol` — the emoji
display string (comment in the source: "Used for display like 10♠️") —
while `this.shortDisplay = rankCode + suitCode` (e.g. `AS`, `TC`) is,
per its own comment, "for internal use".

`GameManager.peekCardInHand` (lines 60-63) and `Player.playCard` /
`Player.getCard` nevertheless compare the player's typed card code
against `card.code`, so the documented text format (`'AS'`, `'TC'` —
quoted in `GameManager.processCardPlay`'s own error message and prompt)
can never match. -/

/-- `SUITS_MAP[suitCode].symbol` of `Card.js`. -/
def suitSymbol : Suit → String
  | Suit.S => "♠️"
  | Suit.H => "♥️"
  | Suit.D => "♦️"
  | Suit.C => "♣️"

/-- Single-character suit codes (the keys of `SUITS_MAP`). -/
def suitCodeStr : Suit → String
  | Suit.S => "S"
  | Suit.H => "H"
  | Suit.D => "D"
  | Suit.C => "C"

/-- Single-character rank codes (the keys of `RANKS_MAP`), from the
    card's comparison value. -/
def rankCodeStr (v : Int) : String :=
  if v = 14 then "A" else if v = 13 then "K" else if v = 12 then "Q"
  else if v = 11 then "J" else if v = 10 then "T"
  else if v = 9 then "9" else if v = 8 then "8" else if v = 7 then "7"
  else if v = 6 then "6" else if v = 5 then "5" else if v = 4 then "4"
  else if v = 3 then "3" else "2"

/-- `Card.rankText`: show `10` instead of `T`. -/
def rankTextStr (v : Int) : String :=
  if rankCodeStr v = "T" then "10" else rankCodeStr v

/-- `Card.code = rankText + symbol` (the emoji display string). -/
def cardCode (c : Card) : String :=
  rankTextStr c.value ++ suitSymbol c.suit

/-- `Card.shortDisplay = rankCode + suitCode` (e.g. `AS`, `TC`). -/
def cardShortDisplay (c : Card) : String :=
  rankCodeStr c.value ++ suitCodeStr c.suit

/-- `String.prototype.toUpperCase`, over the character list of the
    string (strings are handled as character lists so that all the
    operations compute). -/
def jsUpper (s : List Char) : List Char :=
  s.map Char.toUpper

/-- `String.prototype.trim`: whitespace stripped from both ends. -/
def jsTrim (s : List Char) : List Char :=
  ((s.dropWhile Char.isWhitespace).reverse.dropWhile Char.isWhitespace).reverse

/-- `GameManager.peekCardInHand`:
    `player.hand.find(card => card.code.toUpperCase() === upperCode)`
    with `upperCode = cardCode.trim().toUpperCase()`. -/
def peekCardInHand (hand : List Card) (cardCodeInput : List Char) : Option Card :=
  let upperCode := jsUpper (jsTrim cardCodeInput)
  hand.find? fun card => jsUpper (cardCode card).toList == upperCode

/-! ## C10 and C2: button-driven bidding (`GameManager.tryPlaceBid`)

`tryPlaceBid(playerId, bidAmount)` (lines 282-316):
```
if (!this.isBiddingActive || this.state !== 'BIDDING') error
if (currentPlayer.discordId !== playerId) error
if (typeof bidAmount !== 'number' || bidAmount < 0 || bidAmount > 13) error
currentPlayer.setBid(bidAmount); this.bidsTaken++;
if (this.bidsTaken < this.players.length) this.advanceTurn('bid')
else this.endBidding()
```
`Player.setBid` stores the amount verbatim and sets
`isNil = (bidAmount === 0)`.  `endBidding` (lines 258-274) only clears
`isBiddingActive` and calls `startTricks` (lines 337-348), which sets
`isTrickActive` and announces `players[currentPlayerIndex]` — the seat
that bid *last*, since the fourth bid skips `advanceTurn` — as the
leader of the first trick.  No code path ever assigns
`this.state = 'PLAYING'`. -/

/-- A JavaScript value arriving as `bidAmount`: a (finite) number, the
    number `NaN`, or a non-number value.  `<` and `>` comparisons
    against `NaN` are false, and `NaN === 0` is false. -/
inductive JSVal
  | num (q : ℚ)
  | nan
  | notNumber
deriving DecidableEq

/-- `typeof bidAmount === 'number'`. -/
def jsIsNumber : JSVal → Bool
  | JSVal.num _ => true
  | JSVal.nan => true
  | JSVal.notNumber => false

/-- `bidAmount < c` (JS comparison; false for `NaN`). -/
def jsLtConst : JSVal → ℚ → Bool
  | JSVal.num q, c => decide (q < c)
  | _, _ => false

/-- `bidAmount > c` (JS comparison; false for `NaN`). -/
def jsGtConst : JSVal → ℚ → Bool
  | JSVal.num q, c => decide (c < q)
  | _, _ => false

/-- `bidAmount === 0`. -/
def jsEqZero : JSVal → Bool
  | JSVal.num q => decide (q = 0)
  | _ => false

/-- The bidding-relevant slice of a `Player` record: Discord id, stored
    bid (`null` before bidding), `isNil` flag. -/
structure BidPlayer where
  discordId : Nat
  bid : Option JSVal
  isNil : Bool
deriving DecidableEq

/-- `Player.setBid(bidAmount)`: stores the amount verbatim,
    `isNil = (bidAmount === 0)`. -/
def setBid (p : BidPlayer) (bidAmount : JSVal) : BidPlayer :=
  { p with bid := some bidAmount, isNil := jsEqZero bidAmount }

/-- The bidding-phase slice of a `GameManager`. -/
structure BidGame where
  stateStr : String
  isBiddingActive : Bool
  isTrickActive : Bool
  bidsTaken : Nat
  currentPlayerIndex : Nat
  players : List BidPlayer
deriving DecidableEq

/-- `GameManager.tryPlaceBid`; `none` models every `{ error }` return
    (the state is returned unchanged by the source in those cases). -/
def tryPlaceBid (g : BidGame) (playerId : Nat) (bidAmount : JSVal) : Option BidGame :=
  -- `if (!this.isBiddingActive || this.state !== 'BIDDING') error`
  if g.isBiddingActive = true ∧ g.stateStr = "BIDDING" then
    match g.players[g.currentPlayerIndex]? with
    | none => none
    | some currentPlayer =>
      -- `if (currentPlayer.discordId !== playerId) error`
      if currentPlayer.discordId = playerId then
        -- `if (typeof bidAmount !== 'number' || bidAmount < 0 || bidAmount > 13) error`
        if jsIsNumber bidAmount = true ∧ jsLtConst bidAmount 0 = false ∧
            jsGtConst bidAmount 13 = false then
          let players' := g.players.set g.currentPlayerIndex (setBid currentPlayer bidAmount)
          let g1 := { g with players := players', bidsTaken := g.bidsTaken + 1 }
          if g1.bidsTaken < g1.players.length then
            -- advanceTurn('bid')
            some { g1 with currentPlayerIndex := (g1.currentPlayerIndex + 1) % g1.players.length }
          else
            -- endBidding() -> startTricks(): isBiddingActive cleared,
            -- isTrickActive set, currentPlayerIndex and state untouched
            some { g1 with isBiddingActive := false, isTrickActive := true }
        else none
      else none
  else none

/-! ## C3: `spadesBroken` across rounds

`GameManager.startNextRound` (lines 741-751) rotates
`currentPlayerIndex`, rebuilds and shuffles the deck, deals
(`dealCards` resets each player via `Player.resetForNewRound`, which
clears hand/bid/isNil/tricksTaken only) and calls `startBidding`
(state := BIDDING, isBiddingActive := true, bidsTaken := 0).
**No statement in this path writes `this.spadesBroken`** — it is set to
`false` only in the constructor.  (The alternate `Game.startRound` does
reset it.) -/

/-- The round-control flags of a `GameManager` (the deck and hands,
    which `startNextRound` also rebuilds, carry no `spadesBroken`
    information and are modelled separately for C5). -/
structure GMRoundFlags where
  spadesBroken : Bool
  currentPlayerIndex : Nat
  stateStr : String
  isBiddingActive : Bool
  isTrickActive : Bool
  bidsTaken : Nat
  numPlayers : Nat
deriving DecidableEq

/-- `GameManager.startNextRound` followed by `startBidding`: every
    field-write of that path (`spadesBroken` is not among them). -/
def startNextRoundFlags (s : GMRoundFlags) : GMRoundFlags :=
  { s with currentPlayerIndex := (s.currentPlayerIndex + 1) % s.numPlayers,
           stateStr := "BIDDING",
           isBiddingActive := true,
           bidsTaken := 0 }

/-! ## C4: trick-winner determination

`GameManager.getWinnerOfTrick` (lines 494-538) runs
`this.currentTrick.reduce(step, this.currentTrick[0])` where `step`
applies, in order: Spade-beats-non-Spade, higher-Spade-wins,
led-suit-beats-off-suit, higher-led-suit-wins, otherwise keeps the
incumbent winner.  (`Game.determineTrickWinner`, Game.js lines 319-355,
is the same algorithm as an explicit loop starting from the first
play.)  The claim: the winner is the play with the maximum key
`(isSpade, isSpade ? rank : (suit == ledSuit ? rank : -1))`. -/

/-- One entry of `currentTrick`: `{ playerId, card }`. -/
structure Play where
  playerId : Nat
  card : Card
deriving DecidableEq

/-- One step of the `reduce` in `GameManager.getWinnerOfTrick`. -/
def trickStep (ledSuit : Suit) (winningEntry currentEntry : Play) : Play :=
  let w := winningEntry.card
  let c := currentEntry.card
  -- 1. If one card is a Spade and the other is not, the Spade wins.
  if c.suit = Suit.S ∧ ¬w.suit = Suit.S then currentEntry
  else if w.suit = Suit.S ∧ ¬c.suit = Suit.S then winningEntry
  -- 2. If both are Spades, the higher Spade wins.
  else if c.suit = Suit.S ∧ w.suit = Suit.S then
    (if w.value < c.value then currentEntry else winningEntry)
  -- 3. Neither is a Spade: check the led suit.
  else if c.suit = ledSuit then
    (if ¬w.suit = ledSuit then currentEntry
     else if w.value < c.value then currentEntry else winningEntry)
  else winningEntry

/-- `GameManager.getWinnerOfTrick`: the JS `reduce` with initial value
    `currentTrick[0]` folds the step over every entry (the first entry
    included). -/
def getWinnerOfTrick (ledSuit : Suit) (trick : List Play) : Option Play :=
  match trick with
  | [] => none
  | p :: _ => some (trick.foldl (trickStep ledSuit) p)

/-- The ranking key of the claim:
    `(isSpade, isSpade ? rank : (suit == ledSuit ? rank : -1))`. -/
def trickKey (ledSuit : Suit) (c : Card) : Bool × Int :=
  (c.suit == Suit.S,
    if c.suit = Suit.S then c.value
    else if c.suit = ledSuit then c.value
    else -1)

/-- Strict lexicographic comparison of trick keys: a Spade key beats a
    non-Spade key, equal spade-flags compare by the value component. -/
def keyLt (a b : Bool × Int) : Prop :=
  (a.1 = false ∧ b.1 = true) ∨ (a.1 = b.1 ∧ a.2 < b.2)

instance (a b : Bool × Int) : Decidable (keyLt a b) := by
  unfold keyLt
  infer_instance

/-! ## C5: card conservation within a round

GameManager: `dealCards` (lines 138-156) pops all 52 cards off the deck
round-robin into the four hands; `processCardPlay` (lines 388-488)
moves one validated card from the current player's hand into
`currentTrick`.  The fourth card of a trick triggers the inline
`evaluateTrick` → `endTrick` (lines 540-583), whose first action is
`winner.addTrick()` — but `Player.js` defines **no `addTrick` method**
(its counter field is `tricksTaken`, and its only methods are
`addCard`, `setBid`, `resetForNewRound`, `getCard`, `playCard`,
`sortHand`, `getPrettyHand`), so that call throws a TypeError before
any later statement of `endTrick` (count the trick, announce, clear
`currentTrick`, move the lead, end the round) can execute.  The
mutations `processCardPlay` made before the throw — the card removed
from the hand and pushed onto `currentTrick`, `trickSuit`,
`spadesBroken` — remain on the game object, which survives the
exception.

Cards therefore only ever move from the deck into hands (dealing) and
from a hand into `currentTrick` (playing); nothing is ever discarded:
the sum hands + in-progress trick + undealt deck is 52 at every
reachable point of a round, exactly as the claim states. -/

/-- The trick-playing state of a `GameManager` round: the four hands,
    the in-progress trick, its led suit, `spadesBroken`, whose turn it
    is, the total of all players' trick counters (never incremented:
    the one call site that would, `winner.addTrick()`, is the call
    that throws), the remaining (undealt) deck and `isTrickActive`
    (never cleared within a round: both `isTrickActive = false`
    assignments sit after the throwing call). -/
structure GMState where
  h0 : List Card
  h1 : List Card
  h2 : List Card
  h3 : List Card
  currentTrick : List Play
  trickSuit : Option Suit
  spadesBroken : Bool
  currentPlayerIndex : Nat
  tricksWonTotal : Nat
  deckCards : List Card
  isTrickActive : Bool
deriving DecidableEq

/-- The hand of seat `i` (`this.players[i % 4].hand`). -/
def handOf (s : GMState) (i : Nat) : List Card :=
  match i % 4 with
  | 0 => s.h0
  | 1 => s.h1
  | 2 => s.h2
  | _ => s.h3

/-- Replace the hand of seat `i`. -/
def setSeatHand (s : GMState) (i : Nat) (h : List Card) : GMState :=
  match i % 4 with
  | 0 => { s with h0 := h }
  | 1 => { s with h1 := h }
  | 2 => { s with h2 := h }
  | _ => { s with h3 := h }

/-- `Player.addCard` on seat `i` (JS `push` appends). -/
def addCardToSeat (s : GMState) (i : Nat) (c : Card) : GMState :=
  setSeatHand s i (handOf s i ++ [c])

/-- The deck built by `Deck.reset`: for each suit `C D H S` (the key
    order of `SUITS_MAP`), ranks 2..A are pushed in `RANKS_MAP` order. -/
def standardDeck : List Card :=
  (List.map (fun v => (⟨v, Suit.C⟩ : Card)) [2, 3, 4, 5, 6, 7, 8, 9, 10, 11, 12, 13, 14]) ++
  (List.map (fun v => (⟨v, Suit.D⟩ : Card)) [2, 3, 4, 5, 6, 7, 8, 9, 10, 11, 12, 13, 14]) ++
  (List.map (fun v => (⟨v, Suit.H⟩ : Card)) [2, 3, 4, 5, 6, 7, 8, 9, 10, 11, 12, 13, 14]) ++
  (List.map (fun v => (⟨v, Suit.S⟩ : Card)) [2, 3, 4, 5, 6, 7, 8, 9, 10, 11, 12, 13, 14])

/-- The dealing loop of `GameManager.dealCards`:
    `for (i = 0..51) players[i % 4].addCard(deck.deal())`, where
    `Deck.deal` pops the **last** card of the deck array. -/
def dealCardsLoop : Nat → Nat → GMState → GMState
  | 0, _, s => s
  | n + 1, i, s =>
    match s.deckCards.getLast? with
    | none => dealCardsLoop n (i + 1) s
    | some c =>
      dealCardsLoop n (i + 1) (addCardToSeat { s with deckCards := s.deckCards.dropLast } i c)

/-- The state at `startTricks` after a fresh deal from `deck`: hands
    dealt by the 52-iteration loop, empty trick, `spadesBroken` false,
    and — as the bidding flow leaves it (see C2) — seat 3, the last
    bidder, to lead. -/
def initRound (deck : List Card) : GMState :=
  dealCardsLoop 52 0
    { h0 := [], h1 := [], h2 := [], h3 := [], currentTrick := [], trickSuit := none,
      spadesBroken := false, currentPlayerIndex := 3, tricksWonTotal := 0,
      deckCards := deck, isTrickActive := true }

/-- The rule validation of `processCardPlay` for a card already found
    in the current player's hand: the spade-lead rule when leading, the
    follow-suit rule otherwise. -/
def playAllowed (s : GMState) (c : Card) (hand : List Card) : Bool :=
  if s.currentTrick = [] then
    !leadSpadeRejected c hand s.spadesBroken
  else
    match s.trickSuit with
    | none => false
    | some led => !(!(c.suit == led) && hand.any fun x => x.suit == led)

/-- Outcome of one `processCardPlay` call on the current player's card:
    `rejected` is every `return false` path (no mutation);
    `advanced` is a successful play that moves the turn on
    (`return true`);
    `throwsInEndTrick` is the fourth card of a trick — the source then
    runs `evaluateTrick`, which computes the winner with
    `getWinnerOfTrick` (pure, no state effect) and calls
    `endTrick`, whose `winner.addTrick()` throws a TypeError because
    `Player.js` defines no such method; `s'` is the state the game
    object is left in: the trick neither counted nor cleared, the lead
    unchanged, `isTrickActive` still true, but the card already moved
    from the hand into `currentTrick` and `trickSuit`/`spadesBroken`
    already updated. -/
inductive PlayOutcome
  | rejected
  | advanced (s' : GMState)
  | throwsInEndTrick (s' : GMState)
deriving DecidableEq

/-- `GameManager.processCardPlay` (after a successful hand lookup — the
    lookup itself is modelled for C8), up to the point where the
    fourth play's `endTrick` throws. -/
def playStep (s : GMState) (c : Card) : PlayOutcome :=
  if s.isTrickActive = true then
    let hand := handOf s s.currentPlayerIndex
    if c ∈ hand then
      if playAllowed s c hand = true then
        -- trickSuit is set by the first play of a trick
        let ts := if s.currentTrick = [] then some c.suit else s.trickSuit
        -- Player.playCard removes the card from the hand
        let s1 := setSeatHand s s.currentPlayerIndex (hand.erase c)
        let trick := s.currentTrick ++ [⟨s.currentPlayerIndex % 4, c⟩]
        -- spades break on a spade played to a non-spade-led trick
        let broken := s.spadesBroken || (c.suit == Suit.S && !(ts == some Suit.S))
        if trick.length = 4 then
          -- evaluateTrick → endTrick → winner.addTrick(): TypeError.
          -- Nothing after the push/trickSuit/spadesBroken updates runs.
          PlayOutcome.throwsInEndTrick
            { s1 with currentTrick := trick, trickSuit := ts, spadesBroken := broken }
        else
          PlayOutcome.advanced
            { s1 with currentTrick := trick, trickSuit := ts, spadesBroken := broken,
                      currentPlayerIndex := (s.currentPlayerIndex + 1) % 4 }
      else PlayOutcome.rejected
    else PlayOutcome.rejected
  else PlayOutcome.rejected

/-- The state a `playStep` outcome leaves the game object in, when the
    call mutated it (`advanced` or `throwsInEndTrick`). -/
def stateOf : PlayOutcome → Option GMState
  | PlayOutcome.rejected => none
  | PlayOutcome.advanced s' => some s'
  | PlayOutcome.throwsInEndTrick s' => some s'

/-- Total number of cards held in the four hands. -/
def handsTotal (s : GMState) : Nat :=
  s.h0.length + s.h1.length + s.h2.length + s.h3.length

/-- The quantity of the claim: cards in the four hands, in the
    in-progress trick, and in the undealt portion of the deck. -/
def trackedCount (s : GMState) : Nat :=
  handsTotal s + s.currentTrick.length + s.deckCards.length

/-- The round states reachable in the trick-play phase: a fresh deal
    from some shuffle (permutation) of the standard deck, followed by
    any sequence of card plays that mutate the state — successful ones
    and ones that end in the `addTrick` TypeError (the game object
    survives the exception, so `processCardPlay` remains callable on
    the mutated state; including these continuations makes the set a
    superset of what any driver can realize, so the conservation
    theorem in particular covers every actually realizable state). -/
inductive Reachable : GMState → Prop
  | start (deck : List Card) (hperm : deck.Perm standardDeck) : Reachable (initRound deck)
  | play (s : GMState) (c : Card) (s' : GMState) (hs : Reachable s)
      (hstep : playStep s c = PlayOutcome.advanced s') : Reachable s'
  | playThrow (s : GMState) (c : Card) (s' : GMState) (hs : Reachable s)
      (hstep : playStep s c = PlayOutcome.throwsInEndTrick s') : Reachable s'

/-- A concrete round for the crash demonstration: the standard deck
    dealt unshuffled (the identity permutation is one possible
    shuffle). -/
def demoState0 : GMState := initRound standardDeck

/-- Seat 3 (the leader) legally leads the Q♥. -/
def demoState1 : GMState := (stateOf (playStep demoState0 ⟨12, Suit.H⟩)).getD demoState0

/-- Seat 0 follows suit with the J♥. -/
def demoState2 : GMState := (stateOf (playStep demoState1 ⟨11, Suit.H⟩)).getD demoState0

/-- Seat 1 follows suit with the A♥. -/
def demoState3 : GMState := (stateOf (playStep demoState2 ⟨14, Suit.H⟩)).getD demoState0

/-- Seat 2 follows suit with the K♥, the fourth card of the trick: the
    state at the moment `endTrick` throws, the trick still holding its
    4 cards. -/
def demoState4 : GMState := (stateOf (playStep demoState3 ⟨13, Suit.H⟩)).getD demoState0

/-- C9: a Spade lead is rejected exactly when spades are not broken and
    the hand holds at least one non-Spade; an all-Spades hand may lead a
    Spade regardless of `spadesBroken`, and a non-Spade lead is never
    rejected by this rule. -/
theorem C9_spadeLeadRule (card : Card) (hand : List Card) (spadesBroken : Bool) :
    (leadSpadeRejected card hand spadesBroken = true ↔
      (card.suit = Suit.S ∧ spadesBroken = false ∧ ∃ c ∈ hand, c.suit ≠ Suit.S)) ∧
    ((∀ c ∈ hand, c.suit = Suit.S) → leadSpadeRejected card hand spadesBroken = false) ∧
    (card.suit ≠ Suit.S → leadSpadeRejected card hand spadesBroken = false) := by
  refine ⟨?_, ?_, ?_⟩
  · simp [leadSpadeRejected, List.all_eq_true, Bool.not_eq_true']
    tauto
  · intro h
    simp [leadSpadeRejected, List.all_eq_true]
    tauto
  · intro h
    simp [leadSpadeRejected]
    tauto

/-- C9 witness: holding A♠ and 5♥ with spades unbroken, leading A♠ is
    rejected; an all-Spades hand may lead A♠; leading the 5♥ is never
    rejected by this rule. -/
theorem C9_spadeLeadRule_witness :
    leadSpadeRejected ⟨14, Suit.S⟩ [⟨14, Suit.S⟩, ⟨5, Suit.H⟩] false = true ∧
    leadSpadeRejected ⟨14, Suit.S⟩ [⟨14, Suit.S⟩, ⟨13, Suit.S⟩] false = false ∧
    leadSpadeRejected ⟨5, Suit.H⟩ [⟨14, Suit.S⟩, ⟨5, Suit.H⟩] false = false := by
  refine ⟨?_, ?_, ?_⟩
  · exact (C9_spadeLeadRule ⟨14, Suit.S⟩ [⟨14, Suit.S⟩, ⟨5, Suit.H⟩] false).1.mpr
      ⟨rfl, rfl, ⟨5, Suit.H⟩, by decide, by decide⟩
  · exact (C9_spadeLeadRule ⟨14, Suit.S⟩ [⟨14, Suit.S⟩, ⟨13, Suit.S⟩] false).2.1 (by decide)
  · exact (C9_spadeLeadRule ⟨5, Suit.H⟩ [⟨14, Suit.S⟩, ⟨5, Suit.H⟩] false).2.2 (by decide)

/-- C7 counterexample: in the `Game.js` engine a partnership score of
    `-200` ends the game although neither score reached the target 500,
    refuting "GAME_END **iff** at least one partnership's score ≥ target
    ... with no other condition (such as a low score) ending the game". -/
theorem C7_counterexample :
    gjIsGameOver 500 (-200) 0 = true ∧
      ¬((-200 : Int) ≥ 500 ∨ (0 : Int) ≥ 500) := by
  constructor
  · rfl
  · decide

/-- C7 amended: in GameManager, the round handler ends the game iff at
    least one team score reached the target (no other condition);
    the alternate `Game.js` engine ends the game iff a score reached the
    target **or** a score dropped to `-200` or below. -/
theorem C7_gameEndRule (targetScore team1 team2 : Int) :
    (endRoundOutcome targetScore team1 team2 = RoundOutcome.gameEnded ↔
      (team1 ≥ targetScore ∨ team2 ≥ targetScore)) ∧
    (gjIsGameOver targetScore team1 team2 = true ↔
      (team1 ≥ targetScore ∨ team2 ≥ targetScore ∨ team1 ≤ -200 ∨ team2 ≤ -200)) := by
  constructor
  · unfold endRoundOutcome checkGameEnd
    split_ifs with h
    · simp_all
    · simp_all
  · simp [gjIsGameOver]
    tauto

theorem bagPenaltyRepeat_eq (t : Nat) :
    bagPenaltyRepeat t = (100 * (t / 10), t % 10) := by
  induction t using Nat.strong_induction_on with
  | _ t ih =>
    rw [bagPenaltyRepeat]
    split_ifs with h
    · have hrec := ih (t - 10) (by omega)
      simp only [hrec, Prod.mk.injEq]
      omega
    · simp only [Prod.mk.injEq]
      omega

/-- C6 amended: GameManager's `calculateAndApplyBags` is exactly the
    spec's repeated-penalty rule: the team's new bag total is the
    residue left by repeatedly removing 10 bags, each player's score
    drops by 100 per removal (the partnership score, being the average
    of the two equal drops, drops by the same amount), and a total
    below 10 leaves both players entirely unchanged. -/
theorem C6_bagPenalty (a b : GMPlayer) :
    ((calculateAndApplyBagsTeam a b).1.bags + (calculateAndApplyBagsTeam a b).2.bags
        = (bagPenaltyRepeat (a.bags + b.bags)).2) ∧
    ((calculateAndApplyBagsTeam a b).1.score
        = a.score - ((bagPenaltyRepeat (a.bags + b.bags)).1 : Int)) ∧
    ((calculateAndApplyBagsTeam a b).2.score
        = b.score - ((bagPenaltyRepeat (a.bags + b.bags)).1 : Int)) ∧
    (a.bags + b.bags < 10 → calculateAndApplyBagsTeam a b = (a, b)) := by
  rw [bagPenaltyRepeat_eq]
  unfold calculateAndApplyBagsTeam
  dsimp only
  split_ifs with h
  · refine ⟨by simp, by simp [Nat.mul_comm], by simp [Nat.mul_comm], fun hlt => absurd h (by omega)⟩
  · have h0 : (a.bags + b.bags) / 10 = 0 := Nat.div_eq_of_lt (by omega)
    have h1 : (a.bags + b.bags) % 10 = a.bags + b.bags := Nat.mod_eq_of_lt (by omega)
    simp [h0, h1]

/-- C6 witness: a team entering the bag check with 12 + 10 = 22 bags
    loses 100 points twice and keeps 2 bags; a team with 4 + 5 = 9 bags
    is left entirely unchanged. -/
theorem C6_bagPenalty_witness :
    ((calculateAndApplyBagsTeam ⟨3, false, 3, 50, 12⟩ ⟨4, false, 4, 50, 10⟩).1.bags
        + (calculateAndApplyBagsTeam ⟨3, false, 3, 50, 12⟩ ⟨4, false, 4, 50, 10⟩).2.bags = 2) ∧
    ((calculateAndApplyBagsTeam ⟨3, false, 3, 50, 12⟩ ⟨4, false, 4, 50, 10⟩).1.score = -150) ∧
    (calculateAndApplyBagsTeam ⟨0, false, 0, 0, 4⟩ ⟨0, false, 0, 0, 5⟩
        = (⟨0, false, 0, 0, 4⟩, ⟨0, false, 0, 0, 5⟩)) := by
  refine ⟨?_, ?_, (C6_bagPenalty ⟨0, false, 0, 0, 4⟩ ⟨0, false, 0, 0, 5⟩).2.2.2 (by norm_num)⟩
  · have h := (C6_bagPenalty ⟨3, false, 3, 50, 12⟩ ⟨4, false, 4, 50, 10⟩).1
    simpa [bagPenaltyRepeat_eq] using h
  · have h := (C6_bagPenalty ⟨3, false, 3, 50, 12⟩ ⟨4, false, 4, 50, 10⟩).2.1
    simpa [bagPenaltyRepeat_eq] using h

/-- C1 amended (the property as stated, on the `Game.calculateRoundScores`
    engine, plus the trailing bag-penalty discount of that same function):
    with exactly one nil bidder, the team score delta is ±100 for the nil
    bidder plus ±10×bid for the partner's own bid against the partner's
    own tricks, and the team bag total grows by the failed nil bidder's
    tricks plus the partner's overtricks (less the one −100/−10 bag
    penalty when the resulting total reaches 10). -/
theorem C1_singleNilScoring (p1 p2 : GJPlayer)
    (hnil : (p1.bid = 14 ∧ p2.bid ≠ 14) ∨ (p1.bid ≠ 14 ∧ p2.bid = 14)) :
    (gjScoreTeam p1 p2).2.2
        = (if (gjNilPlayer p1 p2).tricks = 0 then (100 : Int) else -100)
          + (if (gjPartner p1 p2).bid ≤ (gjPartner p1 p2).tricks
              then (((gjPartner p1 p2).bid * 10 : Nat) : Int)
              else -(((gjPartner p1 p2).bid * 10 : Nat) : Int))
          - (if 10 ≤ p1.bags + p2.bags
                  + (if (gjNilPlayer p1 p2).tricks = 0 then 0 else (gjNilPlayer p1 p2).tricks)
                  + (if (gjPartner p1 p2).bid ≤ (gjPartner p1 p2).tricks
                      then (gjPartner p1 p2).tricks - (gjPartner p1 p2).bid else 0)
              then (100 : Int) else 0) ∧
    (gjScoreTeam p1 p2).1.bags + (gjScoreTeam p1 p2).2.1.bags
        = p1.bags + p2.bags
          + (if (gjNilPlayer p1 p2).tricks = 0 then 0 else (gjNilPlayer p1 p2).tricks)
          + (if (gjPartner p1 p2).bid ≤ (gjPartner p1 p2).tricks
              then (gjPartner p1 p2).tricks - (gjPartner p1 p2).bid else 0)
          - (if 10 ≤ p1.bags + p2.bags
                  + (if (gjNilPlayer p1 p2).tricks = 0 then 0 else (gjNilPlayer p1 p2).tricks)
                  + (if (gjPartner p1 p2).bid ≤ (gjPartner p1 p2).tricks
                      then (gjPartner p1 p2).tricks - (gjPartner p1 p2).bid else 0)
              then 10 else 0) := by
  rcases hnil with ⟨h1, h2⟩ | ⟨h1, h2⟩ <;>
    · unfold gjScoreTeam gjNilPlayer gjPartner
      simp [h1, h2]
      split_ifs <;> (first | omega | (dsimp only; omega))

/-- C1 witness: nil bidder (bid 14) took 2 tricks, partner bid 4 took 4:
    the team delta is −100 + 40 = −60 and the 2 failed-nil tricks become
    team bags. -/
theorem C1_singleNilScoring_witness :
    (gjScoreTeam ⟨14, 2, 0⟩ ⟨4, 4, 0⟩).2.2 = -60 ∧
    (gjScoreTeam ⟨14, 2, 0⟩ ⟨4, 4, 0⟩).1.bags + (gjScoreTeam ⟨14, 2, 0⟩ ⟨4, 4, 0⟩).2.1.bags = 2 := by
  have h := C1_singleNilScoring ⟨14, 2, 0⟩ ⟨4, 4, 0⟩ (Or.inl (by decide))
  rcases h with ⟨hd, hb⟩
  constructor
  · rw [hd]; decide
  · rw [hb]; decide

/-- C1 counterexample: in `GameManager.endRound`, with a nil bidder
    (bid 0) who took 2 tricks and a partner who bid 4 and took 4, the
    nil bidder's score becomes −100 + 40 = −60, the partner's becomes
    +40, the partnership score moves by (−60 + 40)/2 = −10, and the
    partnership gains 0 bags — not the −100 + 40 = −60 partnership
    change with 2 bags that the claim requires. -/
theorem C1_counterexample :
    (gmScoreRoundTeam ⟨0, true, 2, 0, 0⟩ ⟨4, false, 4, 0, 0⟩
      = (⟨0, true, 2, -60, 0⟩, ⟨4, false, 4, 40, 0⟩)) ∧
    (gmTeamScore (gmScoreRoundTeam ⟨0, true, 2, 0, 0⟩ ⟨4, false, 4, 0, 0⟩).1
        (gmScoreRoundTeam ⟨0, true, 2, 0, 0⟩ ⟨4, false, 4, 0, 0⟩).2
      - gmTeamScore ⟨0, true, 2, 0, 0⟩ ⟨4, false, 4, 0, 0⟩ = -10) ∧
    ¬(gmTeamScore (gmScoreRoundTeam ⟨0, true, 2, 0, 0⟩ ⟨4, false, 4, 0, 0⟩).1
          (gmScoreRoundTeam ⟨0, true, 2, 0, 0⟩ ⟨4, false, 4, 0, 0⟩).2
        - gmTeamScore ⟨0, true, 2, 0, 0⟩ ⟨4, false, 4, 0, 0⟩ = -100 + 40 ∧
      (gmScoreRoundTeam ⟨0, true, 2, 0, 0⟩ ⟨4, false, 4, 0, 0⟩).1.bags
          + (gmScoreRoundTeam ⟨0, true, 2, 0, 0⟩ ⟨4, false, 4, 0, 0⟩).2.bags = 2) := by
  refine ⟨by decide, by decide, by decide⟩

/-- C6 counterexample: in the `Game.js` engine a team entering the
    round with 4 + 5 = 9 bags that gains 13 bags (bids totalling 0,
    13 tricks taken) reaches 22 bags but receives the −100/−10
    adjustment only once, ending with 12 bags and −100 points — not the
    −200 points and 2 bags that "applied repeatedly while the total
    remains at least 10" requires. -/
theorem C6_counterexample :
    ((gjScoreTeam ⟨0, 13, 4⟩ ⟨0, 0, 5⟩).1.bags
        + (gjScoreTeam ⟨0, 13, 4⟩ ⟨0, 0, 5⟩).2.1.bags = 12) ∧
    ((gjScoreTeam ⟨0, 13, 4⟩ ⟨0, 0, 5⟩).2.2 = -100) ∧
    ¬((gjScoreTeam ⟨0, 13, 4⟩ ⟨0, 0, 5⟩).1.bags
          + (gjScoreTeam ⟨0, 13, 4⟩ ⟨0, 0, 5⟩).2.1.bags = (bagPenaltyRepeat 22).2 ∧
      (gjScoreTeam ⟨0, 13, 4⟩ ⟨0, 0, 5⟩).2.2 = -((bagPenaltyRepeat 22).1 : Int)) := by
  rw [bagPenaltyRepeat_eq]
  refine ⟨by decide, by decide, by decide⟩

/-- C8: the documented input `"AS"` for the ace of Spades — exactly its
    `shortDisplay` code — fails to resolve even when the card is in the
    hand, because `peekCardInHand` compares against the emoji `code`
    field (`"A♠️"`); the play is therefore always rejected as
    card-not-in-hand. -/
theorem C8_lookupBug :
    cardShortDisplay ⟨14, Suit.S⟩ = "AS" ∧
    cardCode ⟨14, Suit.S⟩ = "A♠️" ∧
    peekCardInHand [⟨14, Suit.S⟩] "AS".toList = none ∧
    peekCardInHand [⟨14, Suit.S⟩] (cardShortDisplay ⟨14, Suit.S⟩).toList = none := by
  refine ⟨rfl, rfl, ?_, ?_⟩ <;> decide

/-- C10: with bidding active and the submitting player at the current
    seat, every finite JavaScript number in `[0, 13]` — integer or not —
    is accepted and stored verbatim as the player's bid with `isNil`
    exactly for 0; and every rejected submission is a non-number or a
    number outside `[0, 13]` (`NaN`, which no comparison flags, is
    accepted too, but the claim's "only ... are rejected" direction
    holds). -/
theorem C10_buttonBidDomain (g : BidGame) (pid : Nat) (currentPlayer : BidPlayer)
    (hactive : g.isBiddingActive = true) (hstate : g.stateStr = "BIDDING")
    (hcur : g.players[g.currentPlayerIndex]? = some currentPlayer)
    (hturn : currentPlayer.discordId = pid) :
    (∀ q : ℚ, 0 ≤ q → q ≤ 13 →
      ∃ g', tryPlaceBid g pid (JSVal.num q) = some g' ∧
        g'.players[g.currentPlayerIndex]? =
          some { currentPlayer with bid := some (JSVal.num q), isNil := decide (q = 0) }) ∧
    (∀ v : JSVal, tryPlaceBid g pid v = none →
      v = JSVal.notNumber ∨ ∃ q : ℚ, v = JSVal.num q ∧ (q < 0 ∨ 13 < q)) := by
  have hlen : g.currentPlayerIndex < g.players.length := by
    by_contra hge
    rw [List.getElem?_eq_none (by omega)] at hcur
    exact Option.noConfusion hcur
  constructor
  · intro q hq0 hq13
    have hvalid : jsIsNumber (JSVal.num q) = true ∧ jsLtConst (JSVal.num q) 0 = false ∧
        jsGtConst (JSVal.num q) 13 = false := by
      refine ⟨rfl, ?_, ?_⟩ <;> simp [jsLtConst, jsGtConst] <;> linarith
    have hstep : tryPlaceBid g pid (JSVal.num q) =
        (let players' := g.players.set g.currentPlayerIndex (setBid currentPlayer (JSVal.num q))
         let g1 : BidGame := { g with players := players', bidsTaken := g.bidsTaken + 1 }
         if g1.bidsTaken < g1.players.length then
           some { g1 with currentPlayerIndex := (g1.currentPlayerIndex + 1) % g1.players.length }
         else
           some { g1 with isBiddingActive := false, isTrickActive := true }) := by
      unfold tryPlaceBid
      rw [if_pos ⟨hactive, hstate⟩, hcur]
      dsimp only
      rw [if_pos hturn, if_pos hvalid]
    rw [hstep]
    dsimp only
    split_ifs with hlt
    · exact ⟨_, rfl, by simp [setBid, jsEqZero, List.getElem?_set_eq_of_lt _ hlen]⟩
    · exact ⟨_, rfl, by simp [setBid, jsEqZero, List.getElem?_set_eq_of_lt _ hlen]⟩
  · intro v hrej
    have hstep : tryPlaceBid g pid v =
        (if jsIsNumber v = true ∧ jsLtConst v 0 = false ∧ jsGtConst v 13 = false then
          (let players' := g.players.set g.currentPlayerIndex (setBid currentPlayer v)
           let g1 : BidGame := { g with players := players', bidsTaken := g.bidsTaken + 1 }
           if g1.bidsTaken < g1.players.length then
             some { g1 with currentPlayerIndex := (g1.currentPlayerIndex + 1) % g1.players.length }
           else
             some { g1 with isBiddingActive := false, isTrickActive := true })
         else none) := by
      unfold tryPlaceBid
      rw [if_pos ⟨hactive, hstate⟩, hcur]
      dsimp only
      rw [if_pos hturn]
    rw [hstep] at hrej
    by_cases hv : jsIsNumber v = true ∧ jsLtConst v 0 = false ∧ jsGtConst v 13 = false
    · rw [if_pos hv] at hrej
      dsimp only at hrej
      split_ifs at hrej
    · rcases v with q | _ | _
      · simp only [jsIsNumber, jsLtConst, jsGtConst, true_and, not_and, not_or] at hv
        refine Or.inr ⟨q, rfl, ?_⟩
        by_contra hq
        push_neg at hq
        exact hv (by simp [decide_eq_false_iff_not]; linarith [hq.1, hq.2])
          (by simp [decide_eq_false_iff_not]; linarith [hq.1, hq.2])
      · exact absurd ⟨rfl, rfl, rfl⟩ hv
      · exact Or.inl rfl

/-- C10 witness: in a four-seat bidding game it is seat 0's turn; the
    non-integer number 2.5 is accepted and recorded verbatim. -/
theorem C10_buttonBidDomain_witness :
    ∃ g', tryPlaceBid
        { stateStr := "BIDDING", isBiddingActive := true, isTrickActive := false,
          bidsTaken := 0, currentPlayerIndex := 0,
          players := [⟨10, none, false⟩, ⟨11, none, false⟩, ⟨12, none, false⟩, ⟨13, none, false⟩] }
        10 (JSVal.num (5 / 2)) = some g' ∧
      g'.players[(0 : Nat)]? =
        some { discordId := 10, bid := some (JSVal.num (5 / 2)), isNil := decide ((5 / 2 : ℚ) = 0) } := by
  have h := C10_buttonBidDomain
    { stateStr := "BIDDING", isBiddingActive := true, isTrickActive := false,
      bidsTaken := 0, currentPlayerIndex := 0,
      players := [⟨10, none, false⟩, ⟨11, none, false⟩, ⟨12, none, false⟩, ⟨13, none, false⟩] }
    10 ⟨10, none, false⟩ rfl rfl rfl rfl
  exact h.1 (5 / 2) (by norm_num) (by norm_num)

/-- C2: evaluating the bidding flow of a fresh round (seat 0 bids
    first) through four accepted bids: the fourth bid leaves
    `currentPlayerIndex` at 3 — the seat that bid *last* becomes the
    first-trick leader announced by `startTricks` — and the state label
    is still `BIDDING`, never `PLAYING` (which `index.js` requires
    before accepting any card play). -/
theorem C2_leaderAfterBidding :
    (((tryPlaceBid
          { stateStr := "BIDDING", isBiddingActive := true, isTrickActive := false,
            bidsTaken := 0, currentPlayerIndex := 0,
            players := [⟨10, none, false⟩, ⟨11, none, false⟩, ⟨12, none, false⟩, ⟨13, none, false⟩] }
          10 (JSVal.num 3)).bind fun g1 =>
        (tryPlaceBid g1 11 (JSVal.num 4)).bind fun g2 =>
        (tryPlaceBid g2 12 (JSVal.num 2)).bind fun g3 =>
        tryPlaceBid g3 13 (JSVal.num 3)).map fun gf =>
      (gf.currentPlayerIndex, gf.stateStr, gf.isBiddingActive, gf.isTrickActive))
    = some (3, "BIDDING", false, true) := by
  decide

/-- C3: a game in which spades were broken during the finished round
    starts the next round with `spadesBroken` still `true` — the flag
    is not reset at round start, contradicting the claim (and the
    constructor's own comment that it tracks spade-breaking "this
    round"). -/
theorem C3_spadesBrokenCarriesOver :
    (startNextRoundFlags
      { spadesBroken := true, currentPlayerIndex := 2, stateStr := "BIDDING",
        isBiddingActive := false, isTrickActive := false, bidsTaken := 4,
        numPlayers := 4 }).spadesBroken = true ∧
    (startNextRoundFlags
      { spadesBroken := true, currentPlayerIndex := 2, stateStr := "BIDDING",
        isBiddingActive := false, isTrickActive := false, bidsTaken := 4,
        numPlayers := 4 }).stateStr = "BIDDING" := by
  exact ⟨rfl, rfl⟩

theorem keyLt_total (a b : Bool × Int) : keyLt a b ∨ a = b ∨ keyLt b a := by
  rcases a with ⟨a1, a2⟩
  rcases b with ⟨b1, b2⟩
  cases a1 <;> cases b1 <;> simp [keyLt, Prod.ext_iff] <;> omega

theorem keyGe_trans {a b c : Bool × Int} (h1 : ¬keyLt a b) (h2 : ¬keyLt b c) :
    ¬keyLt a c := by
  rcases a with ⟨a1, a2⟩
  rcases b with ⟨b1, b2⟩
  rcases c with ⟨c1, c2⟩
  cases a1 <;> cases b1 <;> cases c1 <;> simp_all [keyLt] <;> omega

theorem trickStep_self (l : Suit) (x : Play) : trickStep l x x = x := by
  unfold trickStep
  dsimp only
  split_ifs <;> simp_all

theorem trickStep_or (l : Suit) (w c : Play) :
    trickStep l w c = w ∨ trickStep l w c = c := by
  unfold trickStep
  dsimp only
  split_ifs <;> simp

/-- The step never replaces the incumbent by a lower-keyed play. -/
theorem trickStep_ge_w (l : Suit) (w c : Play)
    (_hw : 2 ≤ w.card.value) (hc : 2 ≤ c.card.value) :
    ¬keyLt (trickKey l (trickStep l w c).card) (trickKey l w.card) := by
  unfold trickStep
  dsimp only
  split_ifs <;> simp_all [keyLt, trickKey] <;> omega

/-- The step result's key is at least the challenger's key. -/
theorem trickStep_ge_c (l : Suit) (w c : Play)
    (hw : 2 ≤ w.card.value) (_hc : 2 ≤ c.card.value) :
    ¬keyLt (trickKey l (trickStep l w c).card) (trickKey l c.card) := by
  unfold trickStep
  dsimp only
  split_ifs <;> (simp_all [keyLt, trickKey]; try omega)

/-- Equal keys force equal cards, as long as one of them is a Spade or
    of the led suit. -/
theorem trickKey_inj (l : Suit) (x y : Card)
    (hx : 2 ≤ x.value) (hy : 2 ≤ y.value)
    (hons : x.suit = Suit.S ∨ x.suit = l)
    (hk : trickKey l x = trickKey l y) : x = y := by
  rcases x with ⟨xv, xs⟩
  rcases y with ⟨yv, ys⟩
  simp only [trickKey, Prod.ext_iff] at hk
  simp only [Card.mk.injEq]
  rcases hk with ⟨h1, h2⟩
  cases xs <;> cases ys <;> simp_all <;> split_ifs at h2 <;> simp_all

/-- A play whose key dominates the led first play is a Spade or of the
    led suit. -/
theorem winner_onSuit (l : Suit) (w first : Card)
    (hfs : first.suit = l) (hfv : 2 ≤ first.value)
    (hge : ¬keyLt (trickKey l w) (trickKey l first)) :
    w.suit = Suit.S ∨ w.suit = l := by
  by_contra hcon
  push_neg at hcon
  apply hge
  rcases hcon with ⟨hns, hnl⟩
  by_cases hS : l = Suit.S
  · subst hS
    simp [keyLt, trickKey, hns, hfs]
  · have hfns : ¬first.suit = Suit.S := by
      rw [hfs]
      exact hS
    simp [keyLt, trickKey, hns, hnl, hfns, hfs]
    exact Or.inr ⟨hS, by omega⟩

/-- C4: for a complete trick of four distinct real cards whose led suit
    is the suit of the first play, the engine's winner is the unique
    play of maximal key `(isSpade, isSpade ? rank : (suit == ledSuit ?
    rank : -1))`: it is one of the four plays and its key strictly
    dominates every other play's key (so a Spade beats any non-Spade,
    the higher of two Spades wins, the higher led-suit card wins
    otherwise, and an off-suit non-Spade never wins). -/
theorem C4_trickWinner (p0 p1 p2 p3 : Play) (ledSuit : Suit)
    (hled : p0.card.suit = ledSuit)
    (hv0 : validCard p0.card) (hv1 : validCard p1.card)
    (hv2 : validCard p2.card) (hv3 : validCard p3.card)
    (h01 : p0.card ≠ p1.card) (h02 : p0.card ≠ p2.card) (h03 : p0.card ≠ p3.card)
    (h12 : p1.card ≠ p2.card) (h13 : p1.card ≠ p3.card) (h23 : p2.card ≠ p3.card) :
    ∃ w, getWinnerOfTrick ledSuit [p0, p1, p2, p3] = some w ∧
      (w = p0 ∨ w = p1 ∨ w = p2 ∨ w = p3) ∧
      ∀ p, (p = p0 ∨ p = p1 ∨ p = p2 ∨ p = p3) → p ≠ w →
        keyLt (trickKey ledSuit p.card) (trickKey ledSuit w.card) := by
  obtain ⟨hv0l, hv0r⟩ := hv0
  obtain ⟨hv1l, hv1r⟩ := hv1
  obtain ⟨hv2l, hv2r⟩ := hv2
  obtain ⟨hv3l, hv3r⟩ := hv3
  have hfold : getWinnerOfTrick ledSuit [p0, p1, p2, p3] =
      some (trickStep ledSuit (trickStep ledSuit (trickStep ledSuit
        (trickStep ledSuit p0 p0) p1) p2) p3) := rfl
  rw [trickStep_self] at hfold
  set b1 := trickStep ledSuit p0 p1 with hb1
  set b2 := trickStep ledSuit b1 p2 with hb2
  set b3 := trickStep ledSuit b2 p3 with hb3
  have hb1or := trickStep_or ledSuit p0 p1
  rw [← hb1] at hb1or
  have hvb1 : 2 ≤ b1.card.value := by
    rcases hb1or with h | h <;> rw [h]
    · exact hv0l
    · exact hv1l
  have hb2or := trickStep_or ledSuit b1 p2
  rw [← hb2] at hb2or
  have hvb2 : 2 ≤ b2.card.value := by
    rcases hb2or with h | h <;> rw [h]
    · exact hvb1
    · exact hv2l
  have hb3or := trickStep_or ledSuit b2 p3
  rw [← hb3] at hb3or
  have hvb3 : 2 ≤ b3.card.value := by
    rcases hb3or with h | h <;> rw [h]
    · exact hvb2
    · exact hv3l
  -- the fold result dominates every play
  have hge1p0 : ¬keyLt (trickKey ledSuit b1.card) (trickKey ledSuit p0.card) :=
    trickStep_ge_w ledSuit p0 p1 hv0l hv1l
  have hge1p1 : ¬keyLt (trickKey ledSuit b1.card) (trickKey ledSuit p1.card) :=
    trickStep_ge_c ledSuit p0 p1 hv0l hv1l
  have hge2b1 : ¬keyLt (trickKey ledSuit b2.card) (trickKey ledSuit b1.card) :=
    trickStep_ge_w ledSuit b1 p2 hvb1 hv2l
  have hge2p2 : ¬keyLt (trickKey ledSuit b2.card) (trickKey ledSuit p2.card) :=
    trickStep_ge_c ledSuit b1 p2 hvb1 hv2l
  have hge3b2 : ¬keyLt (trickKey ledSuit b3.card) (trickKey ledSuit b2.card) :=
    trickStep_ge_w ledSuit b2 p3 hvb2 hv3l
  have hge3p3 : ¬keyLt (trickKey ledSuit b3.card) (trickKey ledSuit p3.card) :=
    trickStep_ge_c ledSuit b2 p3 hvb2 hv3l
  have hge3b1 := keyGe_trans hge3b2 hge2b1
  have hge3p0 := keyGe_trans hge3b1 hge1p0
  have hge3p1 := keyGe_trans hge3b1 hge1p1
  have hge3p2 := keyGe_trans hge3b2 hge2p2
  have hmem : b3 = p0 ∨ b3 = p1 ∨ b3 = p2 ∨ b3 = p3 := by
    rcases hb3or with h | h
    · rcases hb2or with h2 | h2
      · rcases hb1or with h1 | h1
        · exact Or.inl (by rw [h, h2, h1])
        · exact Or.inr (Or.inl (by rw [h, h2, h1]))
      · exact Or.inr (Or.inr (Or.inl (by rw [h, h2])))
    · exact Or.inr (Or.inr (Or.inr h))
  have honsuit : b3.card.suit = Suit.S ∨ b3.card.suit = ledSuit :=
    winner_onSuit ledSuit b3.card p0.card hled hv0l hge3p0
  refine ⟨b3, hfold, hmem, ?_⟩
  intro p hp hne
  have hgep : ¬keyLt (trickKey ledSuit b3.card) (trickKey ledSuit p.card) := by
    rcases hp with rfl | rfl | rfl | rfl <;> assumption
  rcases keyLt_total (trickKey ledSuit p.card) (trickKey ledSuit b3.card) with h | h | h
  · exact h
  · exfalso
    have hpv : 2 ≤ p.card.value := by
      rcases hp with rfl | rfl | rfl | rfl <;> assumption
    have hcardeq : p.card = b3.card := by
      apply trickKey_inj ledSuit p.card b3.card hpv hvb3 _ h
      -- p's key equals the winner's key, and the winner is a Spade or
      -- led suit with key above (false, -1), so p is too
      by_contra hoff
      push_neg at hoff
      have hkp : trickKey ledSuit p.card = (false, -1) := by
        simp [trickKey, hoff.1, hoff.2]
      rcases honsuit with hs | hs
      · rw [hkp] at h
        have : (false, (-1 : Int)).1 = true := by
          rw [h]
          simp [trickKey, hs]
        simp at this
      · apply absurd h.symm
        apply ne_of_apply_ne Prod.snd
        rw [hkp]
        by_cases hbs : b3.card.suit = Suit.S
        · simp [trickKey, hbs]
          omega
        · simp [trickKey, hbs, hs]
          omega
    apply hne
    rcases hp with rfl | rfl | rfl | rfl <;> rcases hmem with hm | hm | hm | hm <;>
      rw [hm] at hcardeq ⊢ <;> simp_all
  · exact absurd h hgep

/-- C4 witness: the spec's own example trick — 2♣ led, K♠, A♠, 9♣ —
    is won by the third play (A♠). -/
theorem C4_trickWinner_witness :
    getWinnerOfTrick Suit.C
        [⟨0, ⟨2, Suit.C⟩⟩, ⟨1, ⟨13, Suit.S⟩⟩, ⟨2, ⟨14, Suit.S⟩⟩, ⟨3, ⟨9, Suit.C⟩⟩]
      = some ⟨2, ⟨14, Suit.S⟩⟩ ∧
    (∃ w, getWinnerOfTrick Suit.C
          [⟨0, ⟨2, Suit.C⟩⟩, ⟨1, ⟨13, Suit.S⟩⟩, ⟨2, ⟨14, Suit.S⟩⟩, ⟨3, ⟨9, Suit.C⟩⟩]
        = some w ∧
      (w = ⟨0, ⟨2, Suit.C⟩⟩ ∨ w = ⟨1, ⟨13, Suit.S⟩⟩ ∨ w = ⟨2, ⟨14, Suit.S⟩⟩ ∨
        w = ⟨3, ⟨9, Suit.C⟩⟩) ∧
      ∀ p, (p = ⟨0, ⟨2, Suit.C⟩⟩ ∨ p = ⟨1, ⟨13, Suit.S⟩⟩ ∨ p = ⟨2, ⟨14, Suit.S⟩⟩ ∨
          p = ⟨3, ⟨9, Suit.C⟩⟩) → p ≠ w →
        keyLt (trickKey Suit.C p.card) (trickKey Suit.C w.card)) := by
  constructor
  · decide
  · exact C4_trickWinner ⟨0, ⟨2, Suit.C⟩⟩ ⟨1, ⟨13, Suit.S⟩⟩ ⟨2, ⟨14, Suit.S⟩⟩ ⟨3, ⟨9, Suit.C⟩⟩
      Suit.C rfl (by decide) (by decide) (by decide) (by decide)
      (by decide) (by decide) (by decide) (by decide) (by decide) (by decide)

theorem mod4_cases (i : Nat) : i % 4 = 0 ∨ i % 4 = 1 ∨ i % 4 = 2 ∨ i % 4 = 3 := by
  omega

theorem handsTotal_setSeatHand (s : GMState) (i : Nat) (h : List Card) :
    handsTotal (setSeatHand s i h) + (handOf s i).length = handsTotal s + h.length := by
  rcases mod4_cases i with h4 | h4 | h4 | h4 <;>
    simp [setSeatHand, handOf, handsTotal, h4] <;> omega

theorem setSeatHand_fields (s : GMState) (i : Nat) (h : List Card) :
    (setSeatHand s i h).currentTrick = s.currentTrick ∧
    (setSeatHand s i h).trickSuit = s.trickSuit ∧
    (setSeatHand s i h).spadesBroken = s.spadesBroken ∧
    (setSeatHand s i h).currentPlayerIndex = s.currentPlayerIndex ∧
    (setSeatHand s i h).tricksWonTotal = s.tricksWonTotal ∧
    (setSeatHand s i h).deckCards = s.deckCards ∧
    (setSeatHand s i h).isTrickActive = s.isTrickActive := by
  rcases mod4_cases i with h4 | h4 | h4 | h4 <;> simp [setSeatHand, h4]

theorem dealCardsLoop_spec : ∀ (n i : Nat) (s : GMState),
    trackedCount (dealCardsLoop n i s) = trackedCount s ∧
    (dealCardsLoop n i s).currentTrick = s.currentTrick ∧
    (dealCardsLoop n i s).tricksWonTotal = s.tricksWonTotal ∧
    (dealCardsLoop n i s).isTrickActive = s.isTrickActive := by
  intro n
  induction n with
  | zero => intro i s; simp [dealCardsLoop]
  | succ n ih =>
    intro i s
    cases hd : s.deckCards.getLast? with
    | none =>
      simp only [dealCardsLoop, hd]
      exact ih (i + 1) s
    | some c =>
      simp only [dealCardsLoop, hd]
      have hne : s.deckCards ≠ [] := by
        intro h
        rw [h] at hd
        exact Option.noConfusion hd
      have hpos : 1 ≤ s.deckCards.length := List.length_pos.mpr hne
      set sMid : GMState := { s with deckCards := s.deckCards.dropLast } with hsMid
      have hcount : trackedCount (addCardToSeat sMid i c) = trackedCount s := by
        have h1 := handsTotal_setSeatHand sMid i (handOf sMid i ++ [c])
        have h2 := setSeatHand_fields sMid i (handOf sMid i ++ [c])
        unfold addCardToSeat
        unfold trackedCount
        rw [h2.1, h2.2.2.2.2.2.1]
        have hdl : sMid.deckCards.length = s.deckCards.length - 1 := by
          rw [hsMid]
          exact List.length_dropLast s.deckCards
        have hhm : handsTotal sMid = handsTotal s := rfl
        have hht : sMid.currentTrick = s.currentTrick := rfl
        rw [hht] at *
        simp only [List.length_append, List.length_singleton] at h1
        omega
      obtain ⟨hc, ht, hw, ha⟩ := ih (i + 1) (addCardToSeat sMid i c)
      have h2 := setSeatHand_fields sMid i (handOf sMid i ++ [c])
      refine ⟨by rw [hc, hcount], ?_, ?_, ?_⟩
      · rw [ht]
        exact h2.1
      · rw [hw]
        exact h2.2.2.2.2.1
      · rw [ha]
        exact h2.2.2.2.2.2.2

theorem initRound_spec (deck : List Card) (hlen : deck.length = 52) :
    trackedCount (initRound deck) = 52 ∧
    (initRound deck).tricksWonTotal = 0 ∧
    (initRound deck).isTrickActive = true := by
  obtain ⟨hc, _, hw, ha⟩ := dealCardsLoop_spec 52 0
    { h0 := [], h1 := [], h2 := [], h3 := [], currentTrick := [], trickSuit := none,
      spadesBroken := false, currentPlayerIndex := 3, tricksWonTotal := 0,
      deckCards := deck, isTrickActive := true }
  refine ⟨?_, hw, ha⟩
  rw [show initRound deck = dealCardsLoop 52 0 _ from rfl, hc]
  simp [trackedCount, handsTotal, hlen]

/-- One `processCardPlay` call that mutates the state — whether it
    returns true (`advanced`) or ends in the `addTrick` TypeError
    (`throwsInEndTrick`) — conserves hands + trick + deck: the played
    card moves from the hand into `currentTrick` and nothing is ever
    removed from the trick or the deck. -/
theorem playStep_conserves (s : GMState) (c : Card) (s' : GMState)
    (hstep : playStep s c = PlayOutcome.advanced s' ∨
      playStep s c = PlayOutcome.throwsInEndTrick s') :
    trackedCount s' = trackedCount s := by
  have hact : s.isTrickActive = true := by
    by_contra h
    unfold playStep at hstep
    rw [if_neg h] at hstep
    rcases hstep with h' | h' <;> exact PlayOutcome.noConfusion h'
  unfold playStep at hstep
  rw [if_pos hact] at hstep
  by_cases hmem : c ∈ handOf s s.currentPlayerIndex
  swap
  · rw [if_neg hmem] at hstep
    rcases hstep with h' | h' <;> exact PlayOutcome.noConfusion h'
  rw [if_pos hmem] at hstep
  by_cases hallow : playAllowed s c (handOf s s.currentPlayerIndex) = true
  swap
  · rw [if_neg hallow] at hstep
    rcases hstep with h' | h' <;> exact PlayOutcome.noConfusion h'
  rw [if_pos hallow] at hstep
  dsimp only at hstep
  have hhands := handsTotal_setSeatHand s s.currentPlayerIndex
    ((handOf s s.currentPlayerIndex).erase c)
  have hfields := setSeatHand_fields s s.currentPlayerIndex
    ((handOf s s.currentPlayerIndex).erase c)
  have herase : ((handOf s s.currentPlayerIndex).erase c).length
      = (handOf s s.currentPlayerIndex).length - 1 := List.length_erase_of_mem hmem
  have hmemlen : 1 ≤ (handOf s s.currentPlayerIndex).length :=
    List.length_pos.mpr (List.ne_nil_of_mem hmem)
  set s1 := setSeatHand s s.currentPlayerIndex ((handOf s s.currentPlayerIndex).erase c)
    with hs1
  have hdeck : s1.deckCards.length = s.deckCards.length := by
    rw [hfields.2.2.2.2.2.1]
  unfold handsTotal at hhands
  by_cases hlen : (s.currentTrick ++ [(⟨s.currentPlayerIndex % 4, c⟩ : Play)]).length = 4
  · rw [if_pos hlen] at hstep
    rcases hstep with h' | h'
    · exact PlayOutcome.noConfusion h'
    · have hs' := (PlayOutcome.throwsInEndTrick.inj h').symm
      subst hs'
      unfold trackedCount handsTotal
      dsimp only
      simp only [List.length_append, List.length_singleton]
      omega
  · rw [if_neg hlen] at hstep
    rcases hstep with h' | h'
    · have hs' := (PlayOutcome.advanced.inj h').symm
      subst hs'
      unfold trackedCount handsTotal
      dsimp only
      simp only [List.length_append, List.length_singleton]
      omega
    · exact PlayOutcome.noConfusion h'

/-- C5: in every reachable state of a round — in particular at every
    point before the round's last card is played — the four hand sizes
    plus the cards in the in-progress trick plus the cards remaining in
    the undealt portion of the deck equal 52.  (Dealing moves all 52
    deck cards into the hands; each play moves one card from a hand
    into `currentTrick`; and `endTrick`, whose later statements would
    clear the trick, always throws at `winner.addTrick()` first, so no
    card is ever discarded from the tracked sum.) -/
theorem C5_cardConservation (s : GMState) (hreach : Reachable s) :
    s.h0.length + s.h1.length + s.h2.length + s.h3.length +
      s.currentTrick.length + s.deckCards.length = 52 := by
  induction hreach with
  | start deck hperm =>
    have hlen : deck.length = 52 := by
      rw [hperm.length_eq]
      rfl
    obtain ⟨hc, _, _⟩ := initRound_spec deck hlen
    exact hc
  | play s c s' hs hstep ih =>
    show trackedCount s' = 52
    rw [playStep_conserves s c s' (Or.inl hstep)]
    exact ih
  | playThrow s c s' hs hstep ih =>
    show trackedCount s' = 52
    rw [playStep_conserves s c s' (Or.inr hstep)]
    exact ih

/-- C5 witness: the freshly dealt round from the unshuffled standard
    deck satisfies the conservation law (13+13+13+13 + 0 + 0 = 52). -/
theorem C5_cardConservation_witness :
    (initRound standardDeck).h0.length + (initRound standardDeck).h1.length +
      (initRound standardDeck).h2.length + (initRound standardDeck).h3.length +
      (initRound standardDeck).currentTrick.length +
      (initRound standardDeck).deckCards.length = 52 :=
  C5_cardConservation (initRound standardDeck)
    (Reachable.start standardDeck (List.Perm.refl standardDeck))

/-- Concrete demonstration that the model's crash branch is what a full
    legal trick actually hits: with the standard deck dealt unshuffled,
    seat 3 leads Q♥ and seats 0, 1, 2 follow with J♥, A♥, K♥; the
    fourth play ends in `throwsInEndTrick` with all 4 cards still in
    `currentTrick`, no trick counted, the round still active, and the
    tracked sum still 52. -/
theorem playStep_fourthCardThrows :
    playStep demoState3 ⟨13, Suit.H⟩ = PlayOutcome.throwsInEndTrick demoState4 ∧
    demoState4.currentTrick.length = 4 ∧
    demoState4.tricksWonTotal = 0 ∧
    demoState4.isTrickActive = true ∧
    demoState4.h0.length + demoState4.h1.length + demoState4.h2.length +
      demoState4.h3.length + demoState4.currentTrick.length +
      demoState4.deckCards.length = 52 := by
  refine ⟨?_, ?_, ?_, ?_, ?_⟩ <;> decide

end Spades
